import Mathlib

/-!
# Verification of the youtube-helper enrichment engine and metadata cache

Shallow embedding of the core of `rafaelalmeida/youtube-helper`
(`src/cache.py` and `src/youtube_helper.py`): the SQLite-backed metadata
cache, the two enrichment loops (`enrich_playlist` and
`process_takeout_export`), the fetch-outcome classification produced by
`fetch_video_metadata` / `fetch_channel_metadata`, and the numeric
coercions of `export_to_sqlite`.

Modelling conventions:
* SQLite tables with `id TEXT PRIMARY KEY` become association lists of
  `(id, timestamp, payload)` rows; `INSERT OR REPLACE` replaces the row
  with the same id.
* JSON payloads stored by the cache become values of an inductive `Json`
  type; `json.dumps` followed by `json.loads` is the identity on such
  trees (the payloads the program stores are plain dicts with string
  keys), so the store holds the tree itself.
* `datetime.utcnow()` / `datetime.now(timezone.utc)` timestamps are
  passed in explicitly (cache operations) or fixed per run (`now`
  parameter of the enrichment loops); no claim observes clock values.
* The remote API (`requests.get` inside `fetch_video_metadata` /
  `fetch_channel_metadata`) is an oracle mapping an id to the observable
  outcome of the call: the returned value, or the exception raised.
-/

/-! ## Python string helpers

`enrich_playlist` classifies an API error as a not-found outcome by the
test `'not found' in error_msg.lower()` (youtube_helper.py line 595).
-/

/-- `charsStartWith pat l` is true when `pat` occurs at the head of `l`. -/
def charsStartWith : List Char → List Char → Bool
  | [], _ => true
  | _ :: _, [] => false
  | a :: as, b :: bs => a == b && charsStartWith as bs

/-- `charsContain pat l` is true when `pat` occurs contiguously in `l`
(the Python `in` test on strings). -/
def charsContain (pat : List Char) : List Char → Bool
  | [] => charsStartWith pat []
  | c :: rest => charsStartWith pat (c :: rest) || charsContain pat rest

/-- `'not found' in error_msg.lower()` from youtube_helper.py line 595. -/
def containsNotFound (msg : String) : Bool :=
  charsContain ("not found".toList) (msg.toList.map Char.toLower)

/-! ## Association-list utilities shared by the models -/

/-- Lookup in a run-local map such as `channels_by_id` (Python dict
keyed by strings). -/
def assocGet {α : Type} : List (String × α) → String → Option α
  | [], _ => Option.none
  | (k, v) :: rest, key => if k = key then some v else assocGet rest key

/-- Number of occurrences of a string in a list (used to count remote
channel fetches per channel id). -/
def countOcc (c : String) : List String → Nat
  | [] => 0
  | x :: xs => (if x = c then 1 else 0) + countOcc c xs

theorem countOcc_append (c : String) (l₁ l₂ : List String) :
    countOcc c (l₁ ++ l₂) = countOcc c l₁ + countOcc c l₂ := by
  induction l₁ with
  | nil => simp [countOcc]
  | cons x xs ih => simp [countOcc, ih]; omega

/-! ## The metadata cache (`src/cache.py`)

A `Store α` models one of the two SQLite tables
(`videos` / `channels`), each row being `(id, timestamp, content)` with
`id` a primary key. -/

/-- One cache table: rows `(id, timestamp, payload)`, `id` primary key. -/
abbrev Store (α : Type) := List (String × String × α)

/-- `SELECT content FROM t WHERE id = ?` (`get_video` / `get_channel`). -/
def storeGet {α : Type} : Store α → String → Option α
  | [], _ => Option.none
  | (i, _, p) :: rest, id => if i = id then some p else storeGet rest id

/-- Row lookup returning the stored timestamp together with the payload. -/
def storeGetEntry {α : Type} : Store α → String → Option (String × α)
  | [], _ => Option.none
  | (i, t, p) :: rest, id => if i = id then some (t, p) else storeGetEntry rest id

/-- `INSERT OR REPLACE INTO t (id, timestamp, content) VALUES (?, ?, ?)`
(`put_video` / `put_channel`): the row with this primary key, if any, is
replaced. -/
def storePut {α : Type} (s : Store α) (id ts : String) (p : α) : Store α :=
  (id, ts, p) :: s.filter (fun e => ¬ (e.1 = id))

/-- `DELETE FROM t WHERE id = ?` (`remove_video` / `remove_channel`);
the boolean is `cursor.rowcount > 0`. -/
def storeRemove {α : Type} (s : Store α) (id : String) : Store α × Bool :=
  (s.filter (fun e => ¬ (e.1 = id)), s.any (fun e => e.1 = id))

/-- `SELECT COUNT(*) FROM t` (the per-table count reported by `stats`). -/
def storeCount {α : Type} (s : Store α) : Nat := s.length

/-- Number of rows carrying a given primary key. -/
def storeKeyCount {α : Type} (s : Store α) (id : String) : Nat :=
  (s.filter (fun e => e.1 = id)).length

/-- JSON values as stored by the cache (`json.dumps` of the metadata
dicts; all keys are strings, numbers in the stored payloads are
integers or appear as strings). -/
inductive Json where
  | null
  | bool (b : Bool)
  | num (n : Int)
  | str (s : String)
  | arr (xs : List Json)
  | obj (fields : List (String × Json))

/-- The two tables of `~/.youtube-helper/cache.sqlite3`
(`Cache._init_tables`). -/
structure CacheDB where
  videos : Store Json
  channels : Store Json

/-- `Cache.put_video` (cache.py lines 59-76); `ts` stands for the
`datetime.utcnow().isoformat()` taken at call time. -/
def put_video (c : CacheDB) (id ts : String) (data : Json) : CacheDB :=
  { c with videos := storePut c.videos id ts data }

/-- `Cache.get_video` (cache.py lines 78-94): the stored JSON decoded
back (`json.loads`), or `None`. -/
def get_video (c : CacheDB) (id : String) : Option Json :=
  storeGet c.videos id

/-- `Cache.remove_video` (cache.py lines 96-109). -/
def remove_video (c : CacheDB) (id : String) : CacheDB × Bool :=
  let r := storeRemove c.videos id
  ({ c with videos := r.1 }, r.2)

/-- `Cache.put_channel` (cache.py lines 111-128). -/
def put_channel (c : CacheDB) (id ts : String) (data : Json) : CacheDB :=
  { c with channels := storePut c.channels id ts data }

/-- `Cache.get_channel` (cache.py lines 130-146). -/
def get_channel (c : CacheDB) (id : String) : Option Json :=
  storeGet c.channels id

/-- `Cache.remove_channel` (cache.py lines 148-161). -/
def remove_channel (c : CacheDB) (id : String) : CacheDB × Bool :=
  let r := storeRemove c.channels id
  ({ c with channels := r.1 }, r.2)

/-- `Cache.clear` (cache.py lines 163-180): `'videos'` clears the video
table, `'channels'` the channel table, and any other argument
(`None` included) falls into the `else` branch clearing both. -/
def cacheClear (c : CacheDB) (table : Option String) : CacheDB :=
  if table = some "videos" then { c with videos := [] }
  else if table = some "channels" then { c with channels := [] }
  else { videos := [], channels := [] }

/-- `Cache.stats` (cache.py lines 182-201): the per-table row counts. -/
def cacheStats (c : CacheDB) : Nat × Nat :=
  (storeCount c.videos, storeCount c.channels)

/-! ## Numeric coercion in `export_to_sqlite`
(youtube_helper.py lines 919-923 and 972-985)

Each statistics value goes through
`int(x) if x else None` wrapped in `try/except (ValueError, TypeError)`
mapping failures to `None`. `PyVal` models the Python values a JSON
statistics field can hold; `pyToInt` is Python's `int()` on them,
`Option.none` standing for the raised `ValueError`/`TypeError`.
(Exotic accepted forms such as underscore separators or non-ASCII
digits are not modelled; they only enlarge the success set of `int()`
and are never produced by the API payloads.) -/

inductive PyVal where
  | none
  | pbool (b : Bool)
  | pint (n : Int)
  | pstr (s : String)
  | plist (xs : List PyVal)

/-- Python truthiness of the modelled values. -/
def pyTruthy : PyVal → Bool
  | PyVal.none => false
  | PyVal.pbool b => b
  | PyVal.pint n => n != 0
  | PyVal.pstr s => s != ""
  | PyVal.plist [] => false
  | PyVal.plist (_ :: _) => true

/-- Parse an optionally signed decimal numeral (the body of `int(str)`
after stripping surrounding whitespace). -/
def parseSignedDigits (cs : List Char) : Option Int :=
  match cs with
  | [] => Option.none
  | c :: rest =>
    let body := if c = '+' ∨ c = '-' then rest else cs
    if body = [] ∨ ¬ (body.all Char.isDigit) then Option.none
    else
      let mag : Nat := body.foldl (fun acc d => acc * 10 + d.toNat - '0'.toNat) 0
      some (if c = '-' then -(mag : Int) else (mag : Int))

/-- Python `int(x)`: identity on ints, 0/1 on bools, decimal parse on
strings (whitespace-stripped), `TypeError` (= `Option.none`) on `None`
and lists. -/
def pyToInt : PyVal → Option Int
  | PyVal.none => Option.none
  | PyVal.pbool b => some (if b then 1 else 0)
  | PyVal.pint n => some n
  | PyVal.pstr s => parseSignedDigits (s.toList.filter (fun c => ¬ c.isWhitespace))
  | PyVal.plist _ => Option.none

/-- `int(stats.get(k, 0)) if stats.get(k) else None` guarded by
`try/except (ValueError, TypeError): ... = None`
(youtube_helper.py lines 974-985): falsy values skip the coercion and
store `None`; a coercion failure is caught and stores `None`. -/
def coerceCount (v : PyVal) : Option Int :=
  if pyTruthy v then pyToInt v else Option.none

/-- Python `dict.get(k)` on a statistics dict (`None` when absent). -/
def dictGet (d : List (String × PyVal)) (k : String) : PyVal :=
  (assocGet d k).getD PyVal.none

/-- The three video statistics columns extracted by `export_to_sqlite`
(youtube_helper.py lines 972-985): `view_count`, `like_count`,
`comment_count`. -/
def extractCounts (stats : List (String × PyVal)) :
    Option Int × Option Int × Option Int :=
  (coerceCount (dictGet stats "viewCount"),
   coerceCount (dictGet stats "likeCount"),
   coerceCount (dictGet stats "commentCount"))

/-- The `subscriber_count` column of the channels table
(youtube_helper.py lines 919-923): same guarded coercion. -/
def extractSubscriberCount (channelData : List (String × PyVal)) : Option Int :=
  coerceCount (dictGet channelData "subscriber_count")

/-! ## Fetch outcomes (`fetch_video_metadata` / `fetch_channel_metadata`,
youtube_helper.py lines 406-533)

`fetch_video_metadata` returns a pair `(metadata, error_details)`:
* success: `(dict, None)`;
* API error body / HTTP error / missing items: `(None, dict)` carrying a
  `message` and, for API error bodies only, an `error_code`
  (`error_info.get('code')`); a missing video yields
  `(None, {'status_code': ..., 'message': 'Video not found'})`
  (line 450), which has no `error_code` key;
* the underlying `requests.get` may raise `requests.RequestException`,
  and the surrounding per-item code may raise other exceptions.
`VideoFetch.noneNone` models the `(None, None)` shape, which both
callers branch on (lines 613 and 1700) although `fetch_video_metadata`
never actually produces it. -/

/-- Fields of a fetched video payload that the enrichment loops and the
claims observe; the remaining payload fields (title, description,
statistics, ...) are copied verbatim into the output records and are
not inspected by any claim. -/
structure VideoMeta where
  channelId : Option String
  extractedAt : Option String
deriving DecidableEq, Repr

/-- Fields of a fetched channel payload that the loops observe
(`channel_data.get('_extracted_at')`); all other fields are copied
verbatim. -/
structure ChannelMeta where
  extractedAt : Option String
deriving DecidableEq, Repr

/-- Observable outcome of one `fetch_video_metadata` call. -/
inductive VideoFetch where
  | ok (meta : VideoMeta)
  | apiErr (msg : String) (errorCode : Option String)
  | noneNone
  | raiseReq (msg : String)
  | raiseOther (msg : String)
deriving DecidableEq, Repr

/-- Observable outcome of one `fetch_channel_metadata` call: a dict,
`None` (no items), or a raised exception. -/
inductive ChannelFetch where
  | ok (meta : ChannelMeta)
  | notFound
  | raiseReq (msg : String)
  | raiseOther (msg : String)
deriving DecidableEq, Repr

/-- The remote API as an oracle: the outcome each id would produce. -/
structure Oracle where
  fetchVideo : String → VideoFetch
  fetchChannel : String → ChannelFetch

/-- One record appended to `enriched_videos`: either an error record
`{'video_id', 'added_at', 'error', ...}` or a full `output_video`
record. `appearsIn` is the `appears_in_playlists` list added by
`process_takeout_export` (always `[]` for `enrich_playlist`, whose
records carry no such key). -/
structure OutItem where
  videoId : String
  addedAt : String
  error : Option String
  channelId : Option String
  extractedAt : Option String
  appearsIn : List String
deriving DecidableEq, Repr

/-- Error record appended by `enrich_playlist`
(`{'video_id': ..., 'added_at': ..., 'error': msg}`). -/
def errItem (vid addedAt msg : String) : OutItem :=
  { videoId := vid, addedAt := addedAt, error := some msg,
    channelId := Option.none, extractedAt := Option.none, appearsIn := [] }

/-- Error record appended by `process_takeout_export` (same plus
`appears_in_playlists`). -/
def errItemTk (vid addedAt msg : String) (pls : List String) : OutItem :=
  { errItem vid addedAt msg with appearsIn := pls }

/-- The `output_video` record of `enrich_playlist`
(youtube_helper.py lines 747-758): video payload fields joined with the
payload's `channel_id` and the original `added_at`. -/
def okItem (vid addedAt : String) (payload : VideoMeta) : OutItem :=
  { videoId := vid, addedAt := addedAt, error := Option.none,
    channelId := payload.channelId, extractedAt := payload.extractedAt,
    appearsIn := [] }

/-- The `output_video` record of `process_takeout_export`
(youtube_helper.py lines 1742-1754). -/
def okItemTk (vid addedAt : String) (payload : VideoMeta) (pls : List String) : OutItem :=
  { okItem vid addedAt payload with appearsIn := pls }

/-! ## `enrich_playlist` (youtube_helper.py lines 535-829)

The per-run mutable locals become an explicit state threaded through a
step function; `break` becomes the `halt` constructor of `EPOut`.
`videoFetchLog` / `channelFetchLog` record the ids passed to
`fetch_video_metadata` / `fetch_channel_metadata` (instrumentation: the
sequence of remote calls performed, used to state dedup claims).
`errorsLog` is the `errors` list. `write_error_to_log` and the progress
bar are I/O and not modelled. -/

structure EPState where
  enriched : List OutItem
  channelsById : List (String × ChannelMeta)
  vcache : Store VideoMeta
  ccache : Store ChannelMeta
  videoCacheHits : Nat
  channelCacheHits : Nat
  apiCalls : Nat
  apiSuccess : Nat
  apiErrors : Nat
  consecutive : Nat
  videosNotFound : Nat
  processingErrors : Nat
  errorsLog : List (String × String)
  aborted : Bool
  videoFetchLog : List String
  channelFetchLog : List String
deriving DecidableEq, Repr

/-- Result of one iteration of the `for video in progress` loop:
`next` for fall-through/`continue`, `halt` for `break`. -/
inductive EPOut where
  | next (s : EPState)
  | halt (s : EPState)
deriving DecidableEq, Repr

/-- The `try: fetch_channel_metadata ... except` block of
`enrich_playlist` (youtube_helper.py lines 690-737), returning the
updated state and `channel_data`. `api_calls += 1` sits after the call
(line 692), so a raising call does not count it. The generic
`except Exception` (line 727) leaves the consecutive counter untouched. -/
def epChannelFetch (o : Oracle) (now : String) (s : EPState) (cid : String) :
    EPState × Option ChannelMeta :=
  match o.fetchChannel cid with
  | ChannelFetch.ok cm =>
      let cm' := { cm with extractedAt := some now }
      ({ s with apiCalls := s.apiCalls + 1, apiSuccess := s.apiSuccess + 1,
                consecutive := 0,
                ccache := storePut s.ccache cid now cm',
                channelFetchLog := s.channelFetchLog ++ [cid] }, some cm')
  | ChannelFetch.notFound =>
      ({ s with apiCalls := s.apiCalls + 1, apiErrors := s.apiErrors + 1,
                consecutive := s.consecutive + 1,
                channelFetchLog := s.channelFetchLog ++ [cid] }, Option.none)
  | ChannelFetch.raiseReq _ =>
      ({ s with apiErrors := s.apiErrors + 1,
                consecutive := s.consecutive + 1,
                processingErrors := s.processingErrors + 1,
                channelFetchLog := s.channelFetchLog ++ [cid] }, Option.none)
  | ChannelFetch.raiseOther _ =>
      ({ s with apiErrors := s.apiErrors + 1,
                processingErrors := s.processingErrors + 1,
                channelFetchLog := s.channelFetchLog ++ [cid] }, Option.none)

/-- Channel resolution of `enrich_playlist`
(youtube_helper.py lines 677-745): run-local `channels_by_id` map
first, then the durable cache, then the remote fetch; after a cache
miss the breaker check (lines 739-741) runs and a trip `break`s out of
the loop (second component `true`). The map update (lines 743-745) runs
only when not breaking and `channel_data` is truthy. -/
def epChannelPhase (o : Oracle) (now : String) (s : EPState) (payload : VideoMeta) :
    EPState × Bool :=
  match payload.channelId with
  | Option.none => (s, false)
  | some cid =>
    match assocGet s.channelsById cid with
    | some _ => (s, false)
    | Option.none =>
      match storeGet s.ccache cid with
      | some cached =>
          ({ s with channelCacheHits := s.channelCacheHits + 1,
                    channelsById := (cid, cached) :: s.channelsById }, false)
      | Option.none =>
          let r := epChannelFetch o now s cid
          if 10 ≤ r.1.consecutive then ({ r.1 with aborted := true }, true)
          else
            match r.2 with
            | some cdata =>
                ({ r.1 with channelsById := (cid, cdata) :: r.1.channelsById }, false)
            | Option.none => (r.1, false)

/-- Tail of a successful `enrich_playlist` iteration: channel
resolution, then appending `output_video` (lines 747-760) unless the
channel phase broke out; the trailing `if aborted: break` (lines
762-763) is also modelled. -/
def epAppendCheck (s : EPState) : EPOut :=
  if s.aborted then EPOut.halt s else EPOut.next s

def epFinishAux (s1 : EPState) (broke : Bool) (vid addedAt : String)
    (payload : VideoMeta) : EPOut :=
  if broke then EPOut.halt s1
  else epAppendCheck { s1 with enriched := s1.enriched ++ [okItem vid addedAt payload] }

def epFinish (o : Oracle) (now : String) (s : EPState) (vid addedAt : String)
    (payload : VideoMeta) : EPOut :=
  epFinishAux (epChannelPhase o now s payload).1 (epChannelPhase o now s payload).2
    vid addedAt payload

/-- One iteration of the `enrich_playlist` loop
(youtube_helper.py lines 573-763) on the item `(video_id, added_at)`. -/
def epStep (o : Oracle) (now : String) (s : EPState) (it : String × String) : EPOut :=
  match storeGet s.vcache it.1 with
  | some cached =>
      epFinish o now { s with videoCacheHits := s.videoCacheHits + 1 } it.1 it.2 cached
  | Option.none =>
    match o.fetchVideo it.1 with
    | VideoFetch.ok m =>
        let m' := { m with extractedAt := some now }
        epFinish o now
          { s with apiCalls := s.apiCalls + 1, apiSuccess := s.apiSuccess + 1,
                   consecutive := 0,
                   videoFetchLog := s.videoFetchLog ++ [it.1],
                   vcache := storePut s.vcache it.1 now m' } it.1 it.2 m'
    | VideoFetch.apiErr msg _ =>
        let s1 := { s with apiCalls := s.apiCalls + 1, apiErrors := s.apiErrors + 1,
                           videoFetchLog := s.videoFetchLog ++ [it.1],
                           errorsLog := s.errorsLog ++ [(it.1, msg)],
                           enriched := s.enriched ++ [errItem it.1 it.2 msg] }
        let s2 := if containsNotFound msg
                  then { s1 with videosNotFound := s1.videosNotFound + 1, consecutive := 0 }
                  else { s1 with consecutive := s1.consecutive + 1 }
        if 10 ≤ s2.consecutive then EPOut.halt { s2 with aborted := true }
        else EPOut.next s2
    | VideoFetch.noneNone =>
        EPOut.next
          { s with apiCalls := s.apiCalls + 1, apiErrors := s.apiErrors + 1,
                   videosNotFound := s.videosNotFound + 1,
                   videoFetchLog := s.videoFetchLog ++ [it.1],
                   errorsLog := s.errorsLog ++
                     [(it.1, "Video not found (may be deleted or private)")],
                   enriched := s.enriched ++ [errItem it.1 it.2 "Video not found"],
                   consecutive := 0 }
    | VideoFetch.raiseReq msg =>
        let s1 := { s with apiErrors := s.apiErrors + 1,
                           consecutive := s.consecutive + 1,
                           processingErrors := s.processingErrors + 1,
                           videoFetchLog := s.videoFetchLog ++ [it.1],
                           errorsLog := s.errorsLog ++ [(it.1, msg)],
                           enriched := s.enriched ++ [errItem it.1 it.2 msg] }
        if 10 ≤ s1.consecutive then EPOut.halt { s1 with aborted := true }
        else EPOut.next s1
    | VideoFetch.raiseOther msg =>
        EPOut.next
          { s with apiErrors := s.apiErrors + 1,
                   processingErrors := s.processingErrors + 1,
                   videoFetchLog := s.videoFetchLog ++ [it.1],
                   errorsLog := s.errorsLog ++ [(it.1, "Processing error: " ++ msg)],
                   enriched := s.enriched ++ [errItem it.1 it.2 ("Processing error: " ++ msg)],
                   consecutive := 0 }

/-- The full `enrich_playlist` loop over the parsed input items,
stopping early on `break`. -/
def epRun (o : Oracle) (now : String) : EPState → List (String × String) → EPState
  | s, [] => s
  | s, it :: rest =>
    match epStep o now s it with
    | EPOut.next s' => epRun o now s' rest
    | EPOut.halt s' => s'

/-- Run-start state of `enrich_playlist` (lines 553-564) over given
initial cache contents. -/
def epInit (vc : Store VideoMeta) (cc : Store ChannelMeta) : EPState :=
  { enriched := [], channelsById := [], vcache := vc, ccache := cc,
    videoCacheHits := 0, channelCacheHits := 0, apiCalls := 0,
    apiSuccess := 0, apiErrors := 0, consecutive := 0,
    videosNotFound := 0, processingErrors := 0, errorsLog := [],
    aborted := false, videoFetchLog := [], channelFetchLog := [] }

/-- Run-start state over an empty cache. -/
def epInit0 : EPState := epInit [] []

/-! ## `process_takeout_export` (youtube_helper.py lines 1577-1857)

Only the enrichment loop over the deduplicated `all_videos` list
(lines 1650-1769) is modelled; the CSV parsing that builds `all_videos`
and `video_to_playlists` is upstream of every claim and enters as the
item list and the `v2p` map. Unlike `enrich_playlist`, this loop has no
generic `except Exception` around the video fetch, and an unexpected
exception propagates out of the whole function: `TKOut.crash`. -/

structure TKState where
  enriched : List OutItem
  channelsById : List (String × ChannelMeta)
  vcache : Store VideoMeta
  ccache : Store ChannelMeta
  videoCacheHits : Nat
  channelCacheHits : Nat
  apiCalls : Nat
  apiSuccess : Nat
  apiErrors : Nat
  consecutive : Nat
  videosNotFound : Nat
  processingErrors : Nat
  aborted : Bool
  videoFetchLog : List String
  channelFetchLog : List String
deriving DecidableEq, Repr

/-- Result of one iteration of the takeout loop: fall-through or
`continue`, `break`, or an uncaught exception. -/
inductive TKOut where
  | next (s : TKState)
  | halt (s : TKState)
  | crash
deriving DecidableEq, Repr

/-- Channel resolution of `process_takeout_export`
(youtube_helper.py lines 1721-1739): resolved only when the id is not
already in `channels_by_id`; `api_calls += 1` precedes the `try`
(line 1729); a successful fetch does not reset the consecutive counter;
a `None` result updates nothing; `requests.RequestException` increments
`api_errors` and the consecutive counter; any other exception is
uncaught (`Option.none`). -/
def tkChannelPhase (o : Oracle) (now : String) (s : TKState) (payload : VideoMeta) :
    Option TKState :=
  match payload.channelId with
  | Option.none => some s
  | some cid =>
    match assocGet s.channelsById cid with
    | some _ => some s
    | Option.none =>
      match storeGet s.ccache cid with
      | some cached =>
          some { s with channelCacheHits := s.channelCacheHits + 1,
                        channelsById := (cid, cached) :: s.channelsById }
      | Option.none =>
          let s1 := { s with apiCalls := s.apiCalls + 1,
                             channelFetchLog := s.channelFetchLog ++ [cid] }
          match o.fetchChannel cid with
          | ChannelFetch.ok cm =>
              let cm' := { cm with extractedAt := some now }
              some { s1 with apiSuccess := s1.apiSuccess + 1,
                             ccache := storePut s1.ccache cid now cm',
                             channelsById := (cid, cm') :: s1.channelsById }
          | ChannelFetch.notFound => some s1
          | ChannelFetch.raiseReq _ =>
              some { s1 with apiErrors := s1.apiErrors + 1,
                             consecutive := s1.consecutive + 1 }
          | ChannelFetch.raiseOther _ => Option.none

/-- The breaker check at the end of the takeout loop body
(youtube_helper.py lines 1763-1766): `if consecutive_api_errors >= 10:
aborted = True; break`. -/
def tkCheck (s : TKState) : TKOut :=
  if 10 ≤ s.consecutive then TKOut.halt { s with aborted := true }
  else TKOut.next s

/-- Tail of a takeout iteration that obtained a video payload
(cache hit or fetch success): channel resolution, appending
`output_video` (lines 1742-1755), then the breaker check
(lines 1763-1766) at the end of the loop body. -/
def tkFinish (o : Oracle) (now : String) (v2p : String → List String)
    (s : TKState) (vid addedAt : String) (payload : VideoMeta) : TKOut :=
  match tkChannelPhase o now s payload with
  | Option.none => TKOut.crash
  | some s1 =>
    tkCheck { s1 with enriched :=
                s1.enriched ++ [okItemTk vid addedAt payload (v2p vid)] }

/-- One iteration of the `process_takeout_export` loop
(youtube_helper.py lines 1665-1766). A cache hit resets the
consecutive counter (line 1673); a cache miss counts `api_calls`
before the `try` (line 1677); every video-fetch failure branch ends in
`continue`, skipping the end-of-body breaker check; an API error dict
increments the consecutive counter even when it is classified as a
not-found (`error_code == 'videoNotFound'`, lines 1686-1692). -/
def tkStep (o : Oracle) (now : String) (v2p : String → List String)
    (s : TKState) (it : String × String) : TKOut :=
  match storeGet s.vcache it.1 with
  | some cached =>
      tkFinish o now v2p
        { s with videoCacheHits := s.videoCacheHits + 1, consecutive := 0 }
        it.1 it.2 cached
  | Option.none =>
    let s0 := { s with apiCalls := s.apiCalls + 1,
                       videoFetchLog := s.videoFetchLog ++ [it.1] }
    match o.fetchVideo it.1 with
    | VideoFetch.ok m =>
        let m' := { m with extractedAt := some now }
        tkFinish o now v2p
          { s0 with apiSuccess := s0.apiSuccess + 1, consecutive := 0,
                    vcache := storePut s0.vcache it.1 now m' } it.1 it.2 m'
    | VideoFetch.apiErr msg code =>
        let s1 := { s0 with apiErrors := s0.apiErrors + 1,
                            consecutive := s0.consecutive + 1 }
        let s2 := if code = some "videoNotFound"
                  then { s1 with videosNotFound := s1.videosNotFound + 1 }
                  else { s1 with processingErrors := s1.processingErrors + 1 }
        TKOut.next { s2 with enriched :=
                      s2.enriched ++ [errItemTk it.1 it.2 msg (v2p it.1)] }
    | VideoFetch.noneNone =>
        TKOut.next { s0 with videosNotFound := s0.videosNotFound + 1,
                             enriched := s0.enriched ++
                               [errItemTk it.1 it.2 "Video not found" (v2p it.1)] }
    | VideoFetch.raiseReq msg =>
        TKOut.next { s0 with apiErrors := s0.apiErrors + 1,
                             consecutive := s0.consecutive + 1,
                             processingErrors := s0.processingErrors + 1,
                             enriched := s0.enriched ++
                               [errItemTk it.1 it.2 msg (v2p it.1)] }
    | VideoFetch.raiseOther _ => TKOut.crash

/-- The full takeout enrichment loop; `Option.none` when an uncaught
exception escapes. -/
def tkRun (o : Oracle) (now : String) (v2p : String → List String) :
    TKState → List (String × String) → Option TKState
  | s, [] => some s
  | s, it :: rest =>
    match tkStep o now v2p s it with
    | TKOut.next s' => tkRun o now v2p s' rest
    | TKOut.halt s' => some s'
    | TKOut.crash => Option.none

/-- Run-start state of `process_takeout_export` (lines 1651-1661) over
given initial cache contents. -/
def tkInit (vc : Store VideoMeta) (cc : Store ChannelMeta) : TKState :=
  { enriched := [], channelsById := [], vcache := vc, ccache := cc,
    videoCacheHits := 0, channelCacheHits := 0, apiCalls := 0,
    apiSuccess := 0, apiErrors := 0, consecutive := 0,
    videosNotFound := 0, processingErrors := 0,
    aborted := false, videoFetchLog := [], channelFetchLog := [] }

/-- Run-start takeout state over an empty cache. -/
def tkInit0 : TKState := tkInit [] []

/-! ## Store lemmas -/

theorem storeGet_put_same {α : Type} (s : Store α) (id ts : String) (p : α) :
    storeGet (storePut s id ts p) id = some p := by
  simp [storePut, storeGet]

theorem storeGetEntry_put_same {α : Type} (s : Store α) (id ts : String) (p : α) :
    storeGetEntry (storePut s id ts p) id = some (ts, p) := by
  simp [storePut, storeGetEntry]

theorem storeGet_eq_none_of_absent {α : Type} (s : Store α) (id : String)
    (h : ∀ e ∈ s, ¬ e.1 = id) : storeGet s id = Option.none := by
  induction s with
  | nil => rfl
  | cons e rest ih =>
    obtain ⟨i, t, p⟩ := e
    have hi : ¬ i = id := h (i, t, p) (by simp)
    simp [storeGet, hi]
    exact ih (fun e he => h e (by simp [he]))

theorem filter_ne_absent {α : Type} (s : Store α) (id : String) :
    ∀ e ∈ s.filter (fun e => ¬ (e.1 = id)), ¬ e.1 = id := by
  intro e he
  have := List.of_mem_filter he
  simpa using this

theorem storeGet_remove_same {α : Type} (s : Store α) (id : String) :
    storeGet (storeRemove s id).1 id = Option.none :=
  storeGet_eq_none_of_absent _ _ (filter_ne_absent s id)

theorem storePut_filter_ne {α : Type} (s : Store α) (id ts : String) (p : α) :
    (storePut s id ts p).filter (fun e => ¬ (e.1 = id)) =
      s.filter (fun e => ¬ (e.1 = id)) := by
  simp [storePut, List.filter_filter]

theorem storeKeyCount_put_same {α : Type} (s : Store α) (id ts : String) (p : α) :
    storeKeyCount (storePut s id ts p) id = 1 := by
  have h : (s.filter (fun e => ¬ (e.1 = id))).filter (fun e => e.1 = id) = [] := by
    rw [List.filter_filter]
    apply List.filter_eq_nil_iff.mpr
    intro e _
    by_cases hd : e.1 = id <;> simp [hd]
  simp [storeKeyCount, storePut, h]

/-! ## Claim theorems: the cache -/

/-- C6: for each namespace, `put` followed by `get` with the same id
returns the stored payload unchanged (deep equality of the JSON tree),
and `get` on an id that was never stored, or that was just removed,
returns `None`. -/
theorem cache_roundtrip_c6 (c : CacheDB) (id ts : String) (p : Json)
    (hv : ∀ e ∈ c.videos, ¬ e.1 = id) (hc : ∀ e ∈ c.channels, ¬ e.1 = id) :
    get_video (put_video c id ts p) id = some p ∧
    get_channel (put_channel c id ts p) id = some p ∧
    get_video c id = Option.none ∧
    get_channel c id = Option.none ∧
    get_video (remove_video c id).1 id = Option.none ∧
    get_channel (remove_channel c id).1 id = Option.none := by
  refine ⟨?_, ?_, ?_, ?_, ?_, ?_⟩
  · exact storeGet_put_same _ _ _ _
  · exact storeGet_put_same _ _ _ _
  · exact storeGet_eq_none_of_absent _ _ hv
  · exact storeGet_eq_none_of_absent _ _ hc
  · exact storeGet_remove_same _ _
  · exact storeGet_remove_same _ _

/-- Witness for C6 at a concrete cache, id and payload. -/
theorem cache_roundtrip_c6_witness :
    (∀ e ∈ ([("w", "t0", Json.null)] : Store Json), ¬ e.1 = "v") ∧
    get_video (put_video ⟨[("w", "t0", Json.null)], []⟩ "v" "t1"
        (Json.obj [("title", Json.str "x")])) "v" =
      some (Json.obj [("title", Json.str "x")]) := by
  have h1 : ∀ e ∈ ([("w", "t0", Json.null)] : Store Json), ¬ e.1 = "v" := by
    intro e he
    simp only [List.mem_singleton] at he
    subst he
    simp
  exact ⟨h1, (cache_roundtrip_c6 ⟨[("w", "t0", Json.null)], []⟩ "v" "t1"
    (Json.obj [("title", Json.str "x")]) h1 (by intro e he; simp at he)).1⟩

/-- C7: two sequential `put`s with the same id in the same namespace
leave exactly one row for that id, holding the second payload and the
second timestamp, and the `stats()` row count equals that of a single
`put` (the id is counted once). Shown for both namespaces. -/
theorem cache_overwrite_c7 (c : CacheDB) (id t1 t2 : String) (p1 p2 : Json) :
    get_video (put_video (put_video c id t1 p1) id t2 p2) id = some p2 ∧
    storeGetEntry (put_video (put_video c id t1 p1) id t2 p2).videos id =
      some (t2, p2) ∧
    storeKeyCount (put_video (put_video c id t1 p1) id t2 p2).videos id = 1 ∧
    (cacheStats (put_video (put_video c id t1 p1) id t2 p2)).1 =
      (cacheStats (put_video c id t2 p2)).1 ∧
    get_channel (put_channel (put_channel c id t1 p1) id t2 p2) id = some p2 ∧
    storeKeyCount (put_channel (put_channel c id t1 p1) id t2 p2).channels id = 1 := by
  refine ⟨storeGet_put_same _ _ _ _, storeGetEntry_put_same _ _ _ _,
          storeKeyCount_put_same _ _ _ _, ?_, storeGet_put_same _ _ _ _,
          storeKeyCount_put_same _ _ _ _⟩
  simp [cacheStats, put_video, storeCount, storePut, storePut_filter_ne]

/-- C9: `clear` with any argument other than the exact strings
`'videos'` and `'channels'` — `None` included — empties both tables. -/
theorem cache_clear_c9 (c : CacheDB) (t : Option String)
    (h1 : ¬ t = some "videos") (h2 : ¬ t = some "channels") :
    cacheClear c t = { videos := [], channels := [] } := by
  simp [cacheClear, h1, h2]

/-- Witness for C9: clearing a populated cache with `None` and with a
misspelled namespace empties both tables. -/
theorem cache_clear_c9_witness :
    (¬ (Option.none : Option String) = some "videos") ∧
    (¬ (some "video" : Option String) = some "videos") ∧
    cacheClear ⟨[("a", "t", Json.null)], [("b", "t", Json.null)]⟩ Option.none =
      { videos := [], channels := [] } ∧
    cacheClear ⟨[("a", "t", Json.null)], [("b", "t", Json.null)]⟩ (some "video") =
      { videos := [], channels := [] } := by
  refine ⟨by simp, by simp, ?_, ?_⟩
  · exact cache_clear_c9 _ _ (by simp) (by simp)
  · exact cache_clear_c9 _ _ (by simp) (by simp)

/-! ## Claim theorem: numeric coercion in the export -/

theorem coerceCount_none_of_fail (v : PyVal) (h : pyToInt v = Option.none) :
    coerceCount v = Option.none := by
  unfold coerceCount
  split
  · exact h
  · rfl

theorem pyToInt_of_coerceCount (v : PyVal) (n : Int) (h : coerceCount v = some n) :
    pyToInt v = some n := by
  unfold coerceCount at h
  split at h
  · exact h
  · cases h

/-- C8: in `export_to_sqlite`, each numeric column (`view_count`,
`like_count`, `comment_count`, `subscriber_count`) is produced by the
total function `coerceCount`: whenever Python's `int()` coercion of the
raw value would raise, the column is `None` (NULL) instead of an
exception, and whenever a number is stored it is exactly the `int()`
coercion of the raw value. -/
theorem export_coercion_c8 (stats channelData : List (String × PyVal)) :
    (pyToInt (dictGet stats "viewCount") = Option.none →
      (extractCounts stats).1 = Option.none) ∧
    (pyToInt (dictGet stats "likeCount") = Option.none →
      (extractCounts stats).2.1 = Option.none) ∧
    (pyToInt (dictGet stats "commentCount") = Option.none →
      (extractCounts stats).2.2 = Option.none) ∧
    (pyToInt (dictGet channelData "subscriber_count") = Option.none →
      extractSubscriberCount channelData = Option.none) ∧
    (∀ n, (extractCounts stats).1 = some n →
      pyToInt (dictGet stats "viewCount") = some n) ∧
    (∀ n, extractSubscriberCount channelData = some n →
      pyToInt (dictGet channelData "subscriber_count") = some n) := by
  refine ⟨fun h => coerceCount_none_of_fail _ h, fun h => coerceCount_none_of_fail _ h,
          fun h => coerceCount_none_of_fail _ h, fun h => coerceCount_none_of_fail _ h,
          fun n h => pyToInt_of_coerceCount _ n h,
          fun n h => pyToInt_of_coerceCount _ n h⟩

/-- Witness for C8: a non-numeric `viewCount` string and a list-valued
`subscriber_count` both fail `int()` and are exported as `None`. -/
theorem export_coercion_c8_witness :
    pyToInt (dictGet [("viewCount", PyVal.pstr "n/a")] "viewCount") = Option.none ∧
    (extractCounts [("viewCount", PyVal.pstr "n/a")]).1 = Option.none ∧
    pyToInt (dictGet [("subscriber_count", PyVal.plist [PyVal.pint 3])]
      "subscriber_count") = Option.none ∧
    extractSubscriberCount [("subscriber_count", PyVal.plist [PyVal.pint 3])] =
      Option.none := by
  have h1 : pyToInt (dictGet [("viewCount", PyVal.pstr "n/a")] "viewCount") =
      Option.none := by decide
  have h2 : pyToInt (dictGet [("subscriber_count", PyVal.plist [PyVal.pint 3])]
      "subscriber_count") = Option.none := rfl
  exact ⟨h1,
    (export_coercion_c8 [("viewCount", PyVal.pstr "n/a")]
      [("subscriber_count", PyVal.plist [PyVal.pint 3])]).1 h1,
    h2,
    (export_coercion_c8 [("viewCount", PyVal.pstr "n/a")]
      [("subscriber_count", PyVal.plist [PyVal.pint 3])]).2.2.2.1 h2⟩


/-! ## The takeout loop cannot abort

In `process_takeout_export` every video-fetch failure branch ends in
`continue`, so the breaker check at the end of the loop body runs only
for iterations that obtained a payload — and those reset the
consecutive counter to 0 before at most one channel-fetch failure can
raise it to 1. Hence `aborted` can never be set. -/

theorem tkCheck_next (s : TKState) (h : ¬ 10 ≤ s.consecutive) :
    tkCheck s = TKOut.next s := by
  simp [tkCheck, h]

theorem tkChannelPhase_props (o : Oracle) (now : String) (s : TKState)
    (payload : VideoMeta) :
    tkChannelPhase o now s payload = Option.none ∨
    ∃ s1, tkChannelPhase o now s payload = some s1 ∧
      s1.aborted = s.aborted ∧ s1.consecutive ≤ s.consecutive + 1 := by
  unfold tkChannelPhase
  split
  · exact Or.inr ⟨s, rfl, rfl, Nat.le_succ _⟩
  · split
    · exact Or.inr ⟨s, rfl, rfl, Nat.le_succ _⟩
    · split
      · exact Or.inr ⟨_, rfl, rfl, Nat.le_succ _⟩
      · split
        · exact Or.inr ⟨_, rfl, rfl, Nat.le_succ _⟩
        · exact Or.inr ⟨_, rfl, rfl, Nat.le_succ _⟩
        · exact Or.inr ⟨_, rfl, rfl, Nat.le_refl _⟩
        · exact Or.inl rfl

theorem tkFinish_of_zero (o : Oracle) (now : String) (v2p : String → List String)
    (s : TKState) (vid addedAt : String) (payload : VideoMeta)
    (h0 : s.consecutive = 0) :
    tkFinish o now v2p s vid addedAt payload = TKOut.crash ∨
    ∃ s', tkFinish o now v2p s vid addedAt payload = TKOut.next s' ∧
      s'.aborted = s.aborted := by
  unfold tkFinish
  rcases tkChannelPhase_props o now s payload with h | ⟨s1, h, hab, hc⟩
  · rw [h]; exact Or.inl rfl
  · rw [h]
    refine Or.inr ⟨_, tkCheck_next _ ?_, ?_⟩
    · show ¬ 10 ≤ s1.consecutive
      omega
    · exact hab

/-- Every iteration of the takeout loop either continues — preserving
the `aborted` flag — or crashes on an uncaught exception; the `break`
of the breaker (`TKOut.halt`) is unreachable. -/
theorem tkStep_props (o : Oracle) (now : String) (v2p : String → List String)
    (s : TKState) (it : String × String) :
    tkStep o now v2p s it = TKOut.crash ∨
    ∃ s', tkStep o now v2p s it = TKOut.next s' ∧ s'.aborted = s.aborted := by
  cases hv : storeGet s.vcache it.1 with
  | some cached =>
    simp only [tkStep, hv]
    exact tkFinish_of_zero o now v2p _ it.1 it.2 _ rfl
  | none =>
    cases hf : o.fetchVideo it.1 with
    | ok m =>
      simp only [tkStep, hv, hf]
      exact tkFinish_of_zero o now v2p _ it.1 it.2 _ rfl
    | apiErr msg code =>
      simp only [tkStep, hv, hf]
      refine Or.inr ⟨_, rfl, ?_⟩
      split <;> rfl
    | noneNone =>
      simp only [tkStep, hv, hf]
      exact Or.inr ⟨_, rfl, rfl⟩
    | raiseReq msg =>
      simp only [tkStep, hv, hf]
      exact Or.inr ⟨_, rfl, rfl⟩
    | raiseOther msg =>
      simp only [tkStep, hv, hf]
      exact Or.inl trivial

/-- A completed takeout run starting unaborted ends unaborted: the
circuit breaker of `process_takeout_export` is unreachable. -/
theorem tkRun_never_aborts (o : Oracle) (now : String) (v2p : String → List String) :
    ∀ (input : List (String × String)) (s : TKState), s.aborted = false →
      ∀ r, tkRun o now v2p s input = some r → r.aborted = false := by
  intro input
  induction input with
  | nil =>
    intro s hs r hr
    unfold tkRun at hr
    cases hr
    exact hs
  | cons it rest ih =>
    intro s hs r hr
    unfold tkRun at hr
    rcases tkStep_props o now v2p s it with hstep | ⟨s', hstep, hab⟩
    · rw [hstep] at hr
      cases hr
    · rw [hstep] at hr
      exact ih s' (hab.trans hs) r hr

/-! ## Claim C1: the circuit breaker -/

/-- Oracle for the breaker scenario: fetching `v1`..`v10` raises
`requests.RequestException` (a transient failure); fetching `v11`
succeeds with a payload that references no channel. -/
def c1Oracle : Oracle :=
  { fetchVideo := fun id =>
      if id = "v11"
      then VideoFetch.ok { channelId := Option.none, extractedAt := Option.none }
      else VideoFetch.raiseReq "connection error",
    fetchChannel := fun _ => ChannelFetch.notFound }

/-- Eleven input items, the first ten of which fail transiently. -/
def c1Input : List (String × String) :=
  [("v1", "t1"), ("v2", "t2"), ("v3", "t3"), ("v4", "t4"), ("v5", "t5"),
   ("v6", "t6"), ("v7", "t7"), ("v8", "t8"), ("v9", "t9"), ("v10", "t10"),
   ("v11", "t11")]

/-- C1: on ten consecutive transient failures followed by a success,
`enrich_playlist` aborts right after recording the 10th failed item —
`v11` is never processed — whereas `process_takeout_export` on the very
same input never aborts: it processes and outputs `v11`, because every
failure branch `continue`s past the breaker check (the check is only
reached with a counter of at most 1, cf. `tkRun_never_aborts`). -/
theorem breaker_divergence_c1 :
    (epRun c1Oracle "T" epInit0 c1Input).aborted = true ∧
    (epRun c1Oracle "T" epInit0 c1Input).enriched.map (fun x => x.videoId) =
      ["v1", "v2", "v3", "v4", "v5", "v6", "v7", "v8", "v9", "v10"] ∧
    (epRun c1Oracle "T" epInit0 c1Input).consecutive = 10 ∧
    (tkRun c1Oracle "T" (fun _ => []) tkInit0 c1Input).map (fun r => r.aborted) =
      some false ∧
    (tkRun c1Oracle "T" (fun _ => []) tkInit0 c1Input).map
        (fun r => r.enriched.map (fun x => x.videoId)) =
      some ["v1", "v2", "v3", "v4", "v5", "v6", "v7", "v8", "v9", "v10", "v11"] ∧
    (tkRun c1Oracle "T" (fun _ => []) tkInit0 c1Input).map (fun r => r.consecutive) =
      some 0 := by
  refine ⟨by decide, by decide, by decide, by decide, by decide, by decide⟩

/-! ## Claim C2: not-found outcomes and the breaker -/

/-- Video-fetch outcomes the program records as "video not found":
the error dict produced by `fetch_video_metadata` line 450 — whose
message contains `'not found'` — and the `(None, None)` shape both
callers also branch on. -/
def vfNotFound : VideoFetch → Bool
  | VideoFetch.apiErr msg _ => containsNotFound msg
  | VideoFetch.noneNone => true
  | _ => false

theorem epStep_notFound (o : Oracle) (now : String) (s : EPState)
    (it : String × String) (hv : storeGet s.vcache it.1 = Option.none)
    (hnf : vfNotFound (o.fetchVideo it.1) = true) :
    ∃ s', epStep o now s it = EPOut.next s' ∧ s'.consecutive = 0 ∧
      s'.aborted = s.aborted ∧ s'.vcache = s.vcache ∧
      s'.enriched.length = s.enriched.length + 1 := by
  cases hf : o.fetchVideo it.1 with
  | apiErr msg code =>
    have hmsg : containsNotFound msg = true := by
      rw [hf] at hnf
      exact hnf
    simp [epStep, hv, hf, hmsg]
  | noneNone =>
    simp [epStep, hv, hf]
  | ok m => rw [hf] at hnf; cases hnf
  | raiseReq msg => rw [hf] at hnf; cases hnf
  | raiseOther msg => rw [hf] at hnf; cases hnf

theorem epRun_notFound (o : Oracle) (now : String) :
    ∀ (input : List (String × String)) (s : EPState),
      s.vcache = [] →
      (∀ it ∈ input, vfNotFound (o.fetchVideo it.1) = true) →
      (epRun o now s input).aborted = s.aborted ∧
      (epRun o now s input).vcache = [] ∧
      (epRun o now s input).enriched.length = s.enriched.length + input.length ∧
      ((epRun o now s input).consecutive = 0 ∨
        (epRun o now s input).consecutive = s.consecutive) := by
  intro input
  induction input with
  | nil =>
    intro s hc _
    exact ⟨rfl, hc, by simp [epRun], Or.inr rfl⟩
  | cons it rest ih =>
    intro s hc hall
    have hv : storeGet s.vcache it.1 = Option.none := by rw [hc]; rfl
    obtain ⟨s', hstep, hcons, hab, hvc, hlen⟩ :=
      epStep_notFound o now s it hv (hall it (by simp))
    have hred : epRun o now s (it :: rest) = epRun o now s' rest := by
      simp only [epRun, hstep]
    have ih' := ih s' (hvc.trans hc) (fun x hx => hall x (by simp [hx]))
    rw [hred]
    refine ⟨ih'.1.trans hab, ih'.2.1, ?_, ?_⟩
    · rw [ih'.2.2.1, hlen]
      simp only [List.length_cons]
      omega
    · rcases ih'.2.2.2 with h0 | hsame
      · exact Or.inl h0
      · exact Or.inl (hsame.trans hcons)

theorem tkStep_notFound (o : Oracle) (now : String) (v2p : String → List String)
    (s : TKState) (it : String × String)
    (hv : storeGet s.vcache it.1 = Option.none)
    (hnf : vfNotFound (o.fetchVideo it.1) = true) :
    ∃ s', tkStep o now v2p s it = TKOut.next s' ∧ s'.aborted = s.aborted ∧
      s'.vcache = s.vcache ∧ s'.enriched.length = s.enriched.length + 1 := by
  cases hf : o.fetchVideo it.1 with
  | apiErr msg code =>
    simp only [tkStep, hv, hf]
    split <;> simp
  | noneNone =>
    simp [tkStep, hv, hf]
  | ok m => rw [hf] at hnf; cases hnf
  | raiseReq msg => rw [hf] at hnf; cases hnf
  | raiseOther msg => rw [hf] at hnf; cases hnf

theorem tkRun_notFound (o : Oracle) (now : String) (v2p : String → List String) :
    ∀ (input : List (String × String)) (s : TKState),
      s.vcache = [] →
      (∀ it ∈ input, vfNotFound (o.fetchVideo it.1) = true) →
      ∃ r, tkRun o now v2p s input = some r ∧ r.aborted = s.aborted ∧
        r.enriched.length = s.enriched.length + input.length := by
  intro input
  induction input with
  | nil =>
    intro s hc _
    exact ⟨s, rfl, rfl, by simp⟩
  | cons it rest ih =>
    intro s hc hall
    have hv : storeGet s.vcache it.1 = Option.none := by rw [hc]; rfl
    obtain ⟨s', hstep, hab, hvc, hlen⟩ :=
      tkStep_notFound o now v2p s it hv (hall it (by simp))
    obtain ⟨r, hrun, hab', hlen'⟩ :=
      ih s' (hvc.trans hc) (fun x hx => hall x (by simp [hx]))
    have hred : tkRun o now v2p s (it :: rest) = tkRun o now v2p s' rest := by
      simp only [tkRun, hstep]
    refine ⟨r, hred.trans hrun, hab'.trans hab, ?_⟩
    · rw [hlen', hlen]
      simp only [List.length_cons]
      omega

/-- C2 (amended): a run whose every video outcome is a not-found never
aborts, in either enrichment loop, and records every item. In
`enrich_playlist` this is because each not-found resets the
consecutive-failure counter to 0 (the final counter is 0); in
`process_takeout_export` a not-found error dict increments the counter
instead, but the failure branch `continue`s past the breaker check, so
the run still completes. -/
theorem notfound_never_aborts_c2 (o : Oracle) (now : String)
    (v2p : String → List String) (input : List (String × String))
    (h : ∀ it ∈ input, vfNotFound (o.fetchVideo it.1) = true) :
    (epRun o now epInit0 input).aborted = false ∧
    (epRun o now epInit0 input).consecutive = 0 ∧
    (epRun o now epInit0 input).enriched.length = input.length ∧
    ∃ r, tkRun o now v2p tkInit0 input = some r ∧ r.aborted = false ∧
      r.enriched.length = input.length := by
  obtain ⟨hab, _, hlen, hcons⟩ := epRun_notFound o now input epInit0 rfl h
  obtain ⟨r, hrun, hab', hlen'⟩ := tkRun_notFound o now v2p input tkInit0 rfl h
  refine ⟨hab, ?_, by simpa [epInit0, epInit] using hlen,
          r, hrun, hab', by simpa [tkInit0, tkInit] using hlen'⟩
  rcases hcons with h0 | hsame
  · exact h0
  · exact hsame

/-- Oracle returning the actual not-found shape of
`fetch_video_metadata` (line 450) for every id. -/
def c2Oracle : Oracle :=
  { fetchVideo := fun _ => VideoFetch.apiErr "Video not found" Option.none,
    fetchChannel := fun _ => ChannelFetch.notFound }

/-- Twenty not-found input items. -/
def c2Input : List (String × String) :=
  [("n1", "t"), ("n2", "t"), ("n3", "t"), ("n4", "t"), ("n5", "t"),
   ("n6", "t"), ("n7", "t"), ("n8", "t"), ("n9", "t"), ("n10", "t"),
   ("n11", "t"), ("n12", "t"), ("n13", "t"), ("n14", "t"), ("n15", "t"),
   ("n16", "t"), ("n17", "t"), ("n18", "t"), ("n19", "t"), ("n20", "t")]

/-- Witness for C2 on twenty consecutive not-found outcomes. -/
theorem notfound_never_aborts_c2_witness :
    (∀ it ∈ c2Input, vfNotFound (c2Oracle.fetchVideo it.1) = true) ∧
    (epRun c2Oracle "T" epInit0 c2Input).aborted = false ∧
    (∃ r, tkRun c2Oracle "T" (fun _ => []) tkInit0 c2Input = some r ∧
      r.aborted = false ∧ r.enriched.length = c2Input.length) := by
  have h : ∀ it ∈ c2Input, vfNotFound (c2Oracle.fetchVideo it.1) = true := by decide
  have hmain := notfound_never_aborts_c2 c2Oracle "T" (fun _ => []) c2Input h
  exact ⟨h, hmain.1, hmain.2.2.2⟩

/-- Counterexample to C2 as stated: in `process_takeout_export` a
not-found outcome does not reset the consecutive-failure counter to 0 —
after three not-found items the counter is 3, because lines 1686-1692
increment it for every error dict, not-found included. -/
theorem notfound_resets_counter_cex_c2 :
    (∀ it ∈ [(("n1", "t") : String × String), ("n2", "t"), ("n3", "t")],
      vfNotFound (c2Oracle.fetchVideo it.1) = true) ∧
    (tkRun c2Oracle "T" (fun _ => []) tkInit0
        [("n1", "t"), ("n2", "t"), ("n3", "t")]).map
        (fun r => r.consecutive) = some 3 := by
  exact ⟨by decide, by decide⟩

/-! ## Claim C10: unexpected exceptions during video processing -/

/-- Outcomes modelling an exception other than
`requests.RequestException` escaping the per-item video processing
(caught by `except Exception` at youtube_helper.py line 660). -/
def vfRaiseOther : VideoFetch → Bool
  | VideoFetch.raiseOther _ => true
  | _ => false

theorem epStep_raiseOther (o : Oracle) (now : String) (s : EPState)
    (it : String × String) (hv : storeGet s.vcache it.1 = Option.none)
    (hro : vfRaiseOther (o.fetchVideo it.1) = true) :
    ∃ s', epStep o now s it = EPOut.next s' ∧ s'.consecutive = 0 ∧
      s'.aborted = s.aborted ∧ s'.vcache = s.vcache ∧
      ∃ e, s'.enriched = s.enriched ++ [e] ∧ e.error.isSome = true ∧
        e.videoId = it.1 := by
  cases hf : o.fetchVideo it.1 with
  | raiseOther msg =>
    have hred : epStep o now s it = EPOut.next
        { s with apiErrors := s.apiErrors + 1,
                 processingErrors := s.processingErrors + 1,
                 videoFetchLog := s.videoFetchLog ++ [it.1],
                 errorsLog := s.errorsLog ++ [(it.1, "Processing error: " ++ msg)],
                 enriched := s.enriched ++
                   [errItem it.1 it.2 ("Processing error: " ++ msg)],
                 consecutive := 0 } := by
      simp [epStep, hv, hf]
    exact ⟨_, hred, rfl, rfl, rfl,
      errItem it.1 it.2 ("Processing error: " ++ msg), rfl, rfl, rfl⟩
  | ok m => rw [hf] at hro; cases hro
  | apiErr msg code => rw [hf] at hro; cases hro
  | noneNone => rw [hf] at hro; cases hro
  | raiseReq msg => rw [hf] at hro; cases hro

theorem epRun_raiseOther (o : Oracle) (now : String) :
    ∀ (input : List (String × String)) (s : EPState),
      s.vcache = [] →
      (∀ it ∈ input, vfRaiseOther (o.fetchVideo it.1) = true) →
      (epRun o now s input).aborted = s.aborted ∧
      (epRun o now s input).vcache = [] ∧
      (epRun o now s input).enriched.length = s.enriched.length + input.length ∧
      ((epRun o now s input).consecutive = 0 ∨
        (epRun o now s input).consecutive = s.consecutive) ∧
      (∀ x ∈ (epRun o now s input).enriched,
        x ∈ s.enriched ∨ x.error.isSome = true) := by
  intro input
  induction input with
  | nil =>
    intro s hc _
    exact ⟨rfl, hc, by simp [epRun], Or.inr rfl, fun x hx => Or.inl hx⟩
  | cons it rest ih =>
    intro s hc hall
    have hv : storeGet s.vcache it.1 = Option.none := by rw [hc]; rfl
    obtain ⟨s', hstep, hcons, hab, hvc, e, henr, herr, _⟩ :=
      epStep_raiseOther o now s it hv (hall it (by simp))
    have hred : epRun o now s (it :: rest) = epRun o now s' rest := by
      simp only [epRun, hstep]
    have ih' := ih s' (hvc.trans hc) (fun x hx => hall x (by simp [hx]))
    rw [hred]
    refine ⟨ih'.1.trans hab, ih'.2.1, ?_, ?_, ?_⟩
    · rw [ih'.2.2.1, henr]
      simp only [List.length_append, List.length_cons, List.length_nil]
      omega
    · rcases ih'.2.2.2.1 with h0 | hsame
      · exact Or.inl h0
      · exact Or.inl (hsame.trans hcons)
    · intro x hx
      rcases ih'.2.2.2.2 x hx with hmem | hsome
      · rw [henr] at hmem
        rcases List.mem_append.mp hmem with hmem' | hsing
        · exact Or.inl hmem'
        · right
          rw [List.mem_singleton.mp hsing]
          exact herr
      · exact Or.inr hsome

/-- C10: in `enrich_playlist`, an exception during video processing
that is not a `requests.RequestException` is recorded as a per-item
error outcome, the step resets the consecutive-failure counter to 0,
and a run consisting solely of such unexpected errors never aborts:
every item is recorded with an error attached and the run completes
unaborted. -/
theorem unexpected_error_no_abort_c10 (o : Oracle) (now : String)
    (input : List (String × String))
    (h : ∀ it ∈ input, vfRaiseOther (o.fetchVideo it.1) = true) :
    (epRun o now epInit0 input).aborted = false ∧
    (epRun o now epInit0 input).consecutive = 0 ∧
    (epRun o now epInit0 input).enriched.length = input.length ∧
    (∀ x ∈ (epRun o now epInit0 input).enriched, x.error.isSome = true) ∧
    (∀ (s : EPState) (it : String × String),
      storeGet s.vcache it.1 = Option.none →
      vfRaiseOther (o.fetchVideo it.1) = true →
      ∃ s', epStep o now s it = EPOut.next s' ∧ s'.consecutive = 0 ∧
        s'.aborted = s.aborted) := by
  obtain ⟨hab, _, hlen, hcons, hmem⟩ := epRun_raiseOther o now input epInit0 rfl h
  refine ⟨hab, ?_, by simpa [epInit0, epInit] using hlen, ?_, ?_⟩
  · rcases hcons with h0 | hsame
    · exact h0
    · exact hsame
  · intro x hx
    rcases hmem x hx with hmem' | hsome
    · simp [epInit0, epInit] at hmem'
    · exact hsome
  · intro s it hv hro
    obtain ⟨s', hstep, hcons', hab', _⟩ := epStep_raiseOther o now s it hv hro
    exact ⟨s', hstep, hcons', hab'⟩

/-- Oracle raising a non-request exception for every fetched id. -/
def c10Oracle : Oracle :=
  { fetchVideo := fun _ =>
      VideoFetch.raiseOther "'str' object has no attribute 'get'",
    fetchChannel := fun _ => ChannelFetch.notFound }

/-- Twelve input items (more than the abort threshold). -/
def c10Input : List (String × String) :=
  [("u1", "t"), ("u2", "t"), ("u3", "t"), ("u4", "t"), ("u5", "t"),
   ("u6", "t"), ("u7", "t"), ("u8", "t"), ("u9", "t"), ("u10", "t"),
   ("u11", "t"), ("u12", "t")]

/-- Witness for C10 on twelve consecutive unexpected errors. -/
theorem unexpected_error_no_abort_c10_witness :
    (∀ it ∈ c10Input, vfRaiseOther (c10Oracle.fetchVideo it.1) = true) ∧
    (epRun c10Oracle "T" epInit0 c10Input).aborted = false ∧
    (epRun c10Oracle "T" epInit0 c10Input).enriched.length = c10Input.length := by
  have h : ∀ it ∈ c10Input, vfRaiseOther (c10Oracle.fetchVideo it.1) = true := by
    decide
  have hmain := unexpected_error_no_abort_c10 c10Oracle "T" c10Input h
  exact ⟨h, hmain.1, hmain.2.2.1⟩

/-! ## Claim C3: cache hits and the consecutive-failure counter -/

/-- C3 (amended): serving an item from the video cache performs no
remote call and increments the video-cache-hit counter in both loops;
`enrich_playlist` leaves the consecutive-failure counter unchanged,
but `process_takeout_export` resets it to 0 (line 1673). Stated for a
cached payload referencing no channel, isolating the effect of the hit
itself. -/
theorem cache_hit_counter_c3 (o : Oracle) (now : String)
    (v2p : String → List String) (s : EPState) (t : TKState)
    (vid addedAt : String) (m : VideoMeta)
    (hs : storeGet s.vcache vid = some m) (ht : storeGet t.vcache vid = some m)
    (hch : m.channelId = Option.none) (hab : s.aborted = false) :
    (∃ s', epStep o now s (vid, addedAt) = EPOut.next s' ∧
      s'.consecutive = s.consecutive ∧
      s'.videoCacheHits = s.videoCacheHits + 1 ∧
      s'.videoFetchLog = s.videoFetchLog ∧ s'.apiCalls = s.apiCalls ∧
      s'.channelFetchLog = s.channelFetchLog) ∧
    (∃ t', tkStep o now v2p t (vid, addedAt) = TKOut.next t' ∧
      t'.consecutive = 0 ∧
      t'.videoCacheHits = t.videoCacheHits + 1 ∧
      t'.videoFetchLog = t.videoFetchLog ∧ t'.apiCalls = t.apiCalls ∧
      t'.channelFetchLog = t.channelFetchLog) := by
  constructor
  · simp [epStep, hs, epFinish, epFinishAux, epAppendCheck, epChannelPhase, hch, hab]
  · simp [tkStep, ht, tkFinish, tkChannelPhase, hch, tkCheck]

/-- Concrete cached payload with no channel reference. -/
def c3meta : VideoMeta := { channelId := Option.none, extractedAt := some "t0" }

/-- `enrich_playlist` state with `h1` cached and a counter of 5. -/
def c3ep : EPState := { epInit [("h1", "t0", c3meta)] [] with consecutive := 5 }

/-- Takeout state with `h1` cached and a counter of 5. -/
def c3tk : TKState := { tkInit [("h1", "t0", c3meta)] [] with consecutive := 5 }

/-- Witness for C3 at concrete states with counter 5. -/
theorem cache_hit_counter_c3_witness :
    storeGet c3ep.vcache "h1" = some c3meta ∧
    storeGet c3tk.vcache "h1" = some c3meta ∧
    c3meta.channelId = Option.none ∧ c3ep.aborted = false ∧
    (∃ s', epStep c2Oracle "T" c3ep ("h1", "a") = EPOut.next s' ∧
      s'.consecutive = c3ep.consecutive ∧
      s'.videoCacheHits = c3ep.videoCacheHits + 1 ∧
      s'.videoFetchLog = c3ep.videoFetchLog ∧ s'.apiCalls = c3ep.apiCalls ∧
      s'.channelFetchLog = c3ep.channelFetchLog) ∧
    (∃ t', tkStep c2Oracle "T" (fun _ => []) c3tk ("h1", "a") = TKOut.next t' ∧
      t'.consecutive = 0 ∧
      t'.videoCacheHits = c3tk.videoCacheHits + 1 ∧
      t'.videoFetchLog = c3tk.videoFetchLog ∧ t'.apiCalls = c3tk.apiCalls ∧
      t'.channelFetchLog = c3tk.channelFetchLog) := by
  have hmain := cache_hit_counter_c3 c2Oracle "T" (fun _ => []) c3ep c3tk
    "h1" "a" c3meta (by decide) (by decide) rfl rfl
  exact ⟨by decide, by decide, rfl, rfl, hmain.1, hmain.2⟩

/-- Oracle for the C3 counterexample: every fetch raises a transient
`requests.RequestException`. -/
def c3Oracle : Oracle :=
  { fetchVideo := fun _ => VideoFetch.raiseReq "connection error",
    fetchChannel := fun _ => ChannelFetch.notFound }

/-- Takeout start state whose cache holds `h6`. -/
def c3cexInit : TKState := tkInit [("h6", "t0", c3meta)] []

/-- Counterexample to C3 as stated: in `process_takeout_export` a cache
hit does not leave the consecutive-failure counter unchanged. After
five transient failures the counter is 5; the sixth item `h6` is served
from the cache (`video_cache_hits` becomes 1) and the counter drops to
0 instead of staying 5. -/
theorem cache_hit_counter_cex_c3 :
    (tkRun c3Oracle "T" (fun _ => []) c3cexInit
        [("f1", "t"), ("f2", "t"), ("f3", "t"), ("f4", "t"), ("f5", "t")]).map
        (fun r => r.consecutive) = some 5 ∧
    (tkRun c3Oracle "T" (fun _ => []) c3cexInit
        [("f1", "t"), ("f2", "t"), ("f3", "t"), ("f4", "t"), ("f5", "t"),
         ("h6", "t")]).map (fun r => r.consecutive) = some 0 ∧
    (tkRun c3Oracle "T" (fun _ => []) c3cexInit
        [("f1", "t"), ("f2", "t"), ("f3", "t"), ("f4", "t"), ("f5", "t"),
         ("h6", "t")]).map (fun r => r.videoCacheHits) = some 1 := by
  exact ⟨by decide, by decide, by decide⟩

/-! ## Claim C5: abort during channel resolution and the current item -/

/-- C5 (amended): in `enrich_playlist`, when a video item's payload is
already resolved (cache hit) and the transient channel-fetch failure
trips the breaker (counter 9 → 10), the loop `break`s at lines 739-741
*before* `output_video` is appended: the already-resolved video item is
discarded from the accumulated output. When the failure does not trip
the breaker, the item is retained (with its channel unresolved) and the
counter merely increments. -/
theorem channel_abort_discards_item_c5 (o : Oracle) (now : String) (s : EPState)
    (vid addedAt cid msg : String) (m : VideoMeta)
    (hv : storeGet s.vcache vid = some m) (hch : m.channelId = some cid)
    (hmap : assocGet s.channelsById cid = Option.none)
    (hcc : storeGet s.ccache cid = Option.none)
    (hfc : o.fetchChannel cid = ChannelFetch.raiseReq msg)
    (hab : s.aborted = false) :
    (s.consecutive = 9 →
      ∃ s', epStep o now s (vid, addedAt) = EPOut.halt s' ∧
        s'.aborted = true ∧ s'.enriched = s.enriched ∧ s'.consecutive = 10) ∧
    (s.consecutive < 9 →
      ∃ s', epStep o now s (vid, addedAt) = EPOut.next s' ∧
        s'.enriched = s.enriched ++ [okItem vid addedAt m] ∧
        s'.consecutive = s.consecutive + 1 ∧ s'.aborted = false) := by
  constructor
  · intro h9
    simp [epStep, hv, epFinish, epFinishAux, epAppendCheck, epChannelPhase, hch, hmap, hcc,
          epChannelFetch, hfc, h9]
  · intro hlt
    have hno : ¬ 10 ≤ s.consecutive + 1 := by omega
    simp [epStep, hv, epFinish, epFinishAux, epAppendCheck, epChannelPhase, hch, hmap, hcc,
          epChannelFetch, hfc, hno, hab]

/-- Cached payload referencing channel `c1`. -/
def c5meta : VideoMeta := { channelId := some "c1", extractedAt := some "t0" }

/-- Oracle for the C5 scenario: every video fetch and every channel
fetch raises a transient `requests.RequestException`. -/
def c5Oracle : Oracle :=
  { fetchVideo := fun _ => VideoFetch.raiseReq "connection error",
    fetchChannel := fun _ => ChannelFetch.raiseReq "connection error" }

/-- `enrich_playlist` state with `v10` cached and nine prior
consecutive failures. -/
def c5ep : EPState := { epInit [("v10", "t0", c5meta)] [] with consecutive := 9 }

/-- Same state with a zero counter. -/
def c5ep0 : EPState := epInit [("v10", "t0", c5meta)] []

/-- Witness for C5 at concrete states with counters 9 and 0. -/
theorem channel_abort_discards_item_c5_witness :
    storeGet c5ep.vcache "v10" = some c5meta ∧ c5meta.channelId = some "c1" ∧
    c5Oracle.fetchChannel "c1" = ChannelFetch.raiseReq "connection error" ∧
    c5ep.consecutive = 9 ∧ c5ep0.consecutive < 9 ∧
    (∃ s', epStep c5Oracle "T" c5ep ("v10", "a") = EPOut.halt s' ∧
      s'.aborted = true ∧ s'.enriched = c5ep.enriched ∧ s'.consecutive = 10) ∧
    (∃ s', epStep c5Oracle "T" c5ep0 ("v10", "a") = EPOut.next s' ∧
      s'.enriched = c5ep0.enriched ++ [okItem "v10" "a" c5meta] ∧
      s'.consecutive = c5ep0.consecutive + 1 ∧ s'.aborted = false) := by
  have h1 := channel_abort_discards_item_c5 c5Oracle "T" c5ep "v10" "a" "c1"
    "connection error" c5meta (by decide) rfl rfl rfl rfl rfl
  have h2 := channel_abort_discards_item_c5 c5Oracle "T" c5ep0 "v10" "a" "c1"
    "connection error" c5meta (by decide) rfl rfl rfl rfl rfl
  exact ⟨by decide, rfl, rfl, rfl, by decide, h1.1 rfl, h2.2 (by decide)⟩

/-- Counterexample to C5 as stated: a full `enrich_playlist` run with
nine transient video failures followed by the cached item `v10` whose
channel fetch fails transiently, tripping the breaker. The run aborts
and the output holds only the nine error items — the successfully
resolved `v10` is **not** included. -/
theorem channel_abort_discards_cex_c5 :
    (epRun c5Oracle "T" (epInit [("v10", "t0", c5meta)] [])
        [("f1", "t"), ("f2", "t"), ("f3", "t"), ("f4", "t"), ("f5", "t"),
         ("f6", "t"), ("f7", "t"), ("f8", "t"), ("f9", "t"), ("v10", "t")]).aborted
      = true ∧
    (epRun c5Oracle "T" (epInit [("v10", "t0", c5meta)] [])
        [("f1", "t"), ("f2", "t"), ("f3", "t"), ("f4", "t"), ("f5", "t"),
         ("f6", "t"), ("f7", "t"), ("f8", "t"), ("f9", "t"), ("v10", "t")]).enriched.map
        (fun x => x.videoId) =
      ["f1", "f2", "f3", "f4", "f5", "f6", "f7", "f8", "f9"] ∧
    (epRun c5Oracle "T" (epInit [("v10", "t0", c5meta)] [])
        [("f1", "t"), ("f2", "t"), ("f3", "t"), ("f4", "t"), ("f5", "t"),
         ("f6", "t"), ("f7", "t"), ("f8", "t"), ("f9", "t"), ("v10", "t")]).videoCacheHits
      = 1 := by
  exact ⟨by decide, by decide, by decide⟩

/-! ## Claim C4: at-most-one remote channel fetch per channel -/

/-- State carried by an `EPOut`. -/
def epOutState : EPOut → EPState
  | EPOut.next s => s
  | EPOut.halt s => s

theorem countOcc_append_one (c x : String) (l : List String) :
    countOcc c (l ++ [x]) = countOcc c l + (if x = c then 1 else 0) := by
  rw [countOcc_append]
  simp [countOcc]

/-- The dedup invariant for channel `c`: the remote channel fetch ran
at most once for `c`, and if it ran once then `c` is now in the
run-local `channels_by_id` map (so it will never be fetched again).
Sound only when `c`'s fetch succeeds — a failed fetch is not memoized. -/
def chInv (c : String) (s : EPState) : Prop :=
  countOcc c s.channelFetchLog ≤ 1 ∧
  (countOcc c s.channelFetchLog = 1 → (assocGet s.channelsById c).isSome = true)

theorem epChannelPhase_chInv (o : Oracle) (now : String) (c : String)
    (cm : ChannelMeta) (hok : o.fetchChannel c = ChannelFetch.ok cm)
    (s : EPState) (payload : VideoMeta) (h : chInv c s) :
    chInv c (epChannelPhase o now s payload).1 := by
  cases hch : payload.channelId with
  | none => simpa only [epChannelPhase, hch] using h
  | some cid =>
    cases hmap : assocGet s.channelsById cid with
    | some v => simpa only [epChannelPhase, hch, hmap] using h
    | none =>
      cases hcc : storeGet s.ccache cid with
      | some cached =>
        simp only [epChannelPhase, hch, hmap, hcc]
        refine ⟨h.1, fun h1 => ?_⟩
        show (assocGet ((cid, cached) :: s.channelsById) c).isSome = true
        by_cases hcidc : cid = c
        · subst hcidc
          simp [assocGet]
        · simp only [assocGet, if_neg hcidc]
          exact h.2 h1
      | none =>
        by_cases hcidc : cid = c
        · rw [hcidc] at hch hmap hcc
          have h0 : countOcc c s.channelFetchLog = 0 := by
            rcases Nat.lt_or_ge (countOcc c s.channelFetchLog) 1 with h1 | h1
            · omega
            · exfalso
              have heq : countOcc c s.channelFetchLog = 1 := by
                have := h.1
                omega
              have hsome := h.2 heq
              rw [hmap] at hsome
              cases hsome
          have hcount : countOcc c (s.channelFetchLog ++ [c]) = 1 := by
            rw [countOcc_append_one, h0]
            simp
          simp only [epChannelPhase, hch, hmap, hcc, epChannelFetch, hok]
          refine ⟨?_, fun _ => ?_⟩
          · show countOcc c (s.channelFetchLog ++ [c]) ≤ 1
            omega
          · show (assocGet ((c, { cm with extractedAt := some now }) ::
                s.channelsById) c).isSome = true
            simp [assocGet]
        · have hkeep : countOcc c (s.channelFetchLog ++ [cid]) =
              countOcc c s.channelFetchLog := by
            rw [countOcc_append_one, if_neg hcidc]
            omega
          cases hfc : o.fetchChannel cid with
          | ok cm2 =>
            simp only [epChannelPhase, hch, hmap, hcc, epChannelFetch, hfc]
            refine ⟨?_, fun h1 => ?_⟩
            · show countOcc c (s.channelFetchLog ++ [cid]) ≤ 1
              rw [hkeep]
              exact h.1
            · show (assocGet ((cid, { cm2 with extractedAt := some now }) ::
                  s.channelsById) c).isSome = true
              simp only [assocGet, if_neg hcidc]
              refine h.2 ?_
              have h1' : countOcc c (s.channelFetchLog ++ [cid]) = 1 := h1
              rw [hkeep] at h1'
              exact h1'
          | notFound =>
            simp only [epChannelPhase, hch, hmap, hcc, epChannelFetch, hfc]
            split
            · refine ⟨?_, fun h1 => ?_⟩
              · show countOcc c (s.channelFetchLog ++ [cid]) ≤ 1
                rw [hkeep]
                exact h.1
              · refine h.2 ?_
                have h1' : countOcc c (s.channelFetchLog ++ [cid]) = 1 := h1
                rw [hkeep] at h1'
                exact h1'
            · refine ⟨?_, fun h1 => ?_⟩
              · show countOcc c (s.channelFetchLog ++ [cid]) ≤ 1
                rw [hkeep]
                exact h.1
              · refine h.2 ?_
                have h1' : countOcc c (s.channelFetchLog ++ [cid]) = 1 := h1
                rw [hkeep] at h1'
                exact h1'
          | raiseReq msg =>
            simp only [epChannelPhase, hch, hmap, hcc, epChannelFetch, hfc]
            split
            · refine ⟨?_, fun h1 => ?_⟩
              · show countOcc c (s.channelFetchLog ++ [cid]) ≤ 1
                rw [hkeep]
                exact h.1
              · refine h.2 ?_
                have h1' : countOcc c (s.channelFetchLog ++ [cid]) = 1 := h1
                rw [hkeep] at h1'
                exact h1'
            · refine ⟨?_, fun h1 => ?_⟩
              · show countOcc c (s.channelFetchLog ++ [cid]) ≤ 1
                rw [hkeep]
                exact h.1
              · refine h.2 ?_
                have h1' : countOcc c (s.channelFetchLog ++ [cid]) = 1 := h1
                rw [hkeep] at h1'
                exact h1'
          | raiseOther msg =>
            simp only [epChannelPhase, hch, hmap, hcc, epChannelFetch, hfc]
            split
            · refine ⟨?_, fun h1 => ?_⟩
              · show countOcc c (s.channelFetchLog ++ [cid]) ≤ 1
                rw [hkeep]
                exact h.1
              · refine h.2 ?_
                have h1' : countOcc c (s.channelFetchLog ++ [cid]) = 1 := h1
                rw [hkeep] at h1'
                exact h1'
            · refine ⟨?_, fun h1 => ?_⟩
              · show countOcc c (s.channelFetchLog ++ [cid]) ≤ 1
                rw [hkeep]
                exact h.1
              · refine h.2 ?_
                have h1' : countOcc c (s.channelFetchLog ++ [cid]) = 1 := h1
                rw [hkeep] at h1'
                exact h1'

theorem epFinishAux_chInv (c : String) (s1 : EPState) (broke : Bool)
    (vid addedAt : String) (payload : VideoMeta) (h : chInv c s1) :
    chInv c (epOutState (epFinishAux s1 broke vid addedAt payload)) := by
  cases broke
  · have hred : epFinishAux s1 false vid addedAt payload =
        epAppendCheck { s1 with enriched :=
          s1.enriched ++ [okItem vid addedAt payload] } := by
      simp [epFinishAux]
    rw [hred]
    unfold epAppendCheck
    split
    · exact ⟨h.1, h.2⟩
    · exact ⟨h.1, h.2⟩
  · have hred : epFinishAux s1 true vid addedAt payload = EPOut.halt s1 := by
      simp [epFinishAux]
    rw [hred]
    exact ⟨h.1, h.2⟩

theorem epFinish_chInv (o : Oracle) (now : String) (c : String)
    (cm : ChannelMeta) (hok : o.fetchChannel c = ChannelFetch.ok cm)
    (s : EPState) (vid addedAt : String) (payload : VideoMeta)
    (h : chInv c s) :
    chInv c (epOutState (epFinish o now s vid addedAt payload)) := by
  have hphase := epChannelPhase_chInv o now c cm hok s payload h
  unfold epFinish
  exact epFinishAux_chInv c _ _ vid addedAt payload hphase

theorem epStep_chInv (o : Oracle) (now : String) (c : String)
    (cm : ChannelMeta) (hok : o.fetchChannel c = ChannelFetch.ok cm)
    (s : EPState) (it : String × String) (h : chInv c s) :
    chInv c (epOutState (epStep o now s it)) := by
  cases hv : storeGet s.vcache it.1 with
  | some cached =>
    simp only [epStep, hv]
    exact epFinish_chInv o now c cm hok _ it.1 it.2 cached ⟨h.1, h.2⟩
  | none =>
    cases hf : o.fetchVideo it.1 with
    | ok m =>
      simp only [epStep, hv, hf]
      exact epFinish_chInv o now c cm hok _ it.1 it.2 _ ⟨h.1, h.2⟩
    | apiErr msg code =>
      simp only [epStep, hv, hf]
      split
      · split
        · exact ⟨h.1, h.2⟩
        · exact ⟨h.1, h.2⟩
      · split
        · exact ⟨h.1, h.2⟩
        · exact ⟨h.1, h.2⟩
    | noneNone =>
      simp only [epStep, hv, hf]
      exact ⟨h.1, h.2⟩
    | raiseReq msg =>
      simp only [epStep, hv, hf]
      split
      · exact ⟨h.1, h.2⟩
      · exact ⟨h.1, h.2⟩
    | raiseOther msg =>
      simp only [epStep, hv, hf]
      exact ⟨h.1, h.2⟩

theorem epRun_chInv (o : Oracle) (now : String) (c : String)
    (cm : ChannelMeta) (hok : o.fetchChannel c = ChannelFetch.ok cm) :
    ∀ (input : List (String × String)) (s : EPState), chInv c s →
      chInv c (epRun o now s input) := by
  intro input
  induction input with
  | nil => intro s h; exact h
  | cons it rest ih =>
    intro s h
    have hstep := epStep_chInv o now c cm hok s it h
    cases hout : epStep o now s it with
    | next s' =>
      rw [hout] at hstep
      have hred : epRun o now s (it :: rest) = epRun o now s' rest := by
        simp only [epRun, hout]
      rw [hred]
      exact ih s' hstep
    | halt s' =>
      rw [hout] at hstep
      have hred : epRun o now s (it :: rest) = s' := by
        simp only [epRun, hout]
      rw [hred]
      exact hstep

/-- The dedup invariant for channel `c` in the takeout loop, mirroring
`chInv`: the remote channel fetch ran at most once for `c`, and if it
ran once then `c` is in the run-local `channels_by_id` map. -/
def chInvTk (c : String) (s : TKState) : Prop :=
  countOcc c s.channelFetchLog ≤ 1 ∧
  (countOcc c s.channelFetchLog = 1 → (assocGet s.channelsById c).isSome = true)

/-- The invariant read off a takeout iteration result (nothing is
claimed about a crashed iteration, whose run returns `Option.none`). -/
def tkOutInv (c : String) : TKOut → Prop
  | TKOut.next s => chInvTk c s
  | TKOut.halt s => chInvTk c s
  | TKOut.crash => True

theorem tkChannelPhase_chInv (o : Oracle) (now : String) (c : String)
    (cm : ChannelMeta) (hok : o.fetchChannel c = ChannelFetch.ok cm)
    (s : TKState) (payload : VideoMeta) (h : chInvTk c s) :
    ∀ s1, tkChannelPhase o now s payload = some s1 → chInvTk c s1 := by
  intro s1 hp
  cases hch : payload.channelId with
  | none =>
    simp only [tkChannelPhase, hch, Option.some.injEq] at hp
    subst hp
    exact h
  | some cid =>
    cases hmap : assocGet s.channelsById cid with
    | some v =>
      simp only [tkChannelPhase, hch, hmap, Option.some.injEq] at hp
      subst hp
      exact h
    | none =>
      cases hcc : storeGet s.ccache cid with
      | some cached =>
        simp only [tkChannelPhase, hch, hmap, hcc, Option.some.injEq] at hp
        subst hp
        refine ⟨h.1, fun h1 => ?_⟩
        show (assocGet ((cid, cached) :: s.channelsById) c).isSome = true
        by_cases hcidc : cid = c
        · rw [hcidc]
          simp [assocGet]
        · simp only [assocGet, if_neg hcidc]
          exact h.2 h1
      | none =>
        by_cases hcidc : cid = c
        · rw [hcidc] at hch hmap hcc
          have h0 : countOcc c s.channelFetchLog = 0 := by
            rcases Nat.lt_or_ge (countOcc c s.channelFetchLog) 1 with h1 | h1
            · omega
            · exfalso
              have heq : countOcc c s.channelFetchLog = 1 := by
                have := h.1
                omega
              have hsome := h.2 heq
              rw [hmap] at hsome
              cases hsome
          simp only [tkChannelPhase, hch, hmap, hcc, hok, Option.some.injEq] at hp
          subst hp
          refine ⟨?_, fun _ => ?_⟩
          · show countOcc c (s.channelFetchLog ++ [c]) ≤ 1
            rw [countOcc_append_one, h0]
            simp
          · show (assocGet ((c, { cm with extractedAt := some now }) ::
                s.channelsById) c).isSome = true
            simp [assocGet]
        · have hkeep : countOcc c (s.channelFetchLog ++ [cid]) =
              countOcc c s.channelFetchLog := by
            rw [countOcc_append_one, if_neg hcidc]
            omega
          cases hfc : o.fetchChannel cid with
          | ok cm2 =>
            simp only [tkChannelPhase, hch, hmap, hcc, hfc, Option.some.injEq] at hp
            subst hp
            refine ⟨?_, fun h1 => ?_⟩
            · show countOcc c (s.channelFetchLog ++ [cid]) ≤ 1
              rw [hkeep]
              exact h.1
            · show (assocGet ((cid, { cm2 with extractedAt := some now }) ::
                  s.channelsById) c).isSome = true
              simp only [assocGet, if_neg hcidc]
              refine h.2 ?_
              have h1' : countOcc c (s.channelFetchLog ++ [cid]) = 1 := h1
              rw [hkeep] at h1'
              exact h1'
          | notFound =>
            simp only [tkChannelPhase, hch, hmap, hcc, hfc, Option.some.injEq] at hp
            subst hp
            refine ⟨?_, fun h1 => ?_⟩
            · show countOcc c (s.channelFetchLog ++ [cid]) ≤ 1
              rw [hkeep]
              exact h.1
            · refine h.2 ?_
              have h1' : countOcc c (s.channelFetchLog ++ [cid]) = 1 := h1
              rw [hkeep] at h1'
              exact h1'
          | raiseReq msg =>
            simp only [tkChannelPhase, hch, hmap, hcc, hfc, Option.some.injEq] at hp
            subst hp
            refine ⟨?_, fun h1 => ?_⟩
            · show countOcc c (s.channelFetchLog ++ [cid]) ≤ 1
              rw [hkeep]
              exact h.1
            · refine h.2 ?_
              have h1' : countOcc c (s.channelFetchLog ++ [cid]) = 1 := h1
              rw [hkeep] at h1'
              exact h1'
          | raiseOther msg =>
            simp only [tkChannelPhase, hch, hmap, hcc, hfc] at hp
            cases hp

theorem tkFinish_chInv (o : Oracle) (now : String) (v2p : String → List String)
    (c : String) (cm : ChannelMeta)
    (hok : o.fetchChannel c = ChannelFetch.ok cm)
    (s : TKState) (vid addedAt : String) (payload : VideoMeta)
    (h : chInvTk c s) :
    tkOutInv c (tkFinish o now v2p s vid addedAt payload) := by
  unfold tkFinish
  cases hp : tkChannelPhase o now s payload with
  | none => exact trivial
  | some s1 =>
    have h1 := tkChannelPhase_chInv o now c cm hok s payload h s1 hp
    show tkOutInv c (tkCheck { s1 with enriched :=
      s1.enriched ++ [okItemTk vid addedAt payload (v2p vid)] })
    unfold tkCheck
    split
    · exact ⟨h1.1, h1.2⟩
    · exact ⟨h1.1, h1.2⟩

theorem tkStep_chInv (o : Oracle) (now : String) (v2p : String → List String)
    (c : String) (cm : ChannelMeta)
    (hok : o.fetchChannel c = ChannelFetch.ok cm)
    (s : TKState) (it : String × String) (h : chInvTk c s) :
    tkOutInv c (tkStep o now v2p s it) := by
  cases hv : storeGet s.vcache it.1 with
  | some cached =>
    simp only [tkStep, hv]
    exact tkFinish_chInv o now v2p c cm hok _ it.1 it.2 cached ⟨h.1, h.2⟩
  | none =>
    cases hf : o.fetchVideo it.1 with
    | ok m =>
      simp only [tkStep, hv, hf]
      exact tkFinish_chInv o now v2p c cm hok _ it.1 it.2 _ ⟨h.1, h.2⟩
    | apiErr msg code =>
      simp only [tkStep, hv, hf]
      split
      · exact ⟨h.1, h.2⟩
      · exact ⟨h.1, h.2⟩
    | noneNone =>
      simp only [tkStep, hv, hf]
      exact ⟨h.1, h.2⟩
    | raiseReq msg =>
      simp only [tkStep, hv, hf]
      exact ⟨h.1, h.2⟩
    | raiseOther msg =>
      simp only [tkStep, hv, hf]
      exact trivial

theorem tkRun_chInv (o : Oracle) (now : String) (v2p : String → List String)
    (c : String) (cm : ChannelMeta)
    (hok : o.fetchChannel c = ChannelFetch.ok cm) :
    ∀ (input : List (String × String)) (s : TKState), chInvTk c s →
      ∀ r, tkRun o now v2p s input = some r → chInvTk c r := by
  intro input
  induction input with
  | nil =>
    intro s h r hr
    unfold tkRun at hr
    cases hr
    exact h
  | cons it rest ih =>
    intro s h r hr
    have hstep := tkStep_chInv o now v2p c cm hok s it h
    unfold tkRun at hr
    cases hout : tkStep o now v2p s it with
    | next s' =>
      rw [hout] at hr hstep
      exact ih s' hstep r hr
    | halt s' =>
      rw [hout] at hr hstep
      cases hr
      exact hstep
    | crash =>
      rw [hout] at hr
      cases hr

/-- C4 (amended): for a channel id whose remote fetch succeeds, the
engine calls `fetch_channel_metadata` at most once per run — in both
`enrich_playlist` and `process_takeout_export` — regardless of how many
videos reference the channel: the first resolution goes run-local map
→ durable cache → remote fetch, and a successful fetch installs the
channel in the run-local map, which satisfies all later references.
(Without the success hypothesis the bound fails: a failed channel fetch
is not memoized and is re-attempted by later items — see the
counterexample.) -/
theorem channel_fetch_once_c4 (o : Oracle) (now : String)
    (v2p : String → List String) (c : String) (cm : ChannelMeta)
    (hok : o.fetchChannel c = ChannelFetch.ok cm)
    (input : List (String × String)) :
    countOcc c (epRun o now epInit0 input).channelFetchLog ≤ 1 ∧
    ∀ r, tkRun o now v2p tkInit0 input = some r →
      countOcc c r.channelFetchLog ≤ 1 := by
  constructor
  · refine (epRun_chInv o now c cm hok input epInit0 ⟨?_, ?_⟩).1
    · show countOcc c [] ≤ 1
      simp [countOcc]
    · intro h1
      have : countOcc c ([] : List String) = 1 := h1
      simp [countOcc] at this
  · intro r hr
    refine (tkRun_chInv o now v2p c cm hok input tkInit0 ⟨?_, ?_⟩ r hr).1
    · show countOcc c [] ≤ 1
      simp [countOcc]
    · intro h1
      have : countOcc c ([] : List String) = 1 := h1
      simp [countOcc] at this

/-- Oracle for the C4 witness: every video resolves with channel `c1`,
and the channel fetch succeeds. -/
def c4okOracle : Oracle :=
  { fetchVideo := fun _ =>
      VideoFetch.ok { channelId := some "c1", extractedAt := Option.none },
    fetchChannel := fun _ => ChannelFetch.ok { extractedAt := Option.none } }

/-- Witness for C4: three videos of the same channel cause exactly one
remote channel fetch, in both loops. -/
theorem channel_fetch_once_c4_witness :
    c4okOracle.fetchChannel "c1" = ChannelFetch.ok { extractedAt := Option.none } ∧
    countOcc "c1" (epRun c4okOracle "T" epInit0
      [("v1", "t"), ("v2", "t"), ("v3", "t")]).channelFetchLog ≤ 1 ∧
    (epRun c4okOracle "T" epInit0
      [("v1", "t"), ("v2", "t"), ("v3", "t")]).channelFetchLog = ["c1"] ∧
    (∀ r, tkRun c4okOracle "T" (fun _ => []) tkInit0
        [("v1", "t"), ("v2", "t"), ("v3", "t")] = some r →
      countOcc "c1" r.channelFetchLog ≤ 1) ∧
    (tkRun c4okOracle "T" (fun _ => []) tkInit0
        [("v1", "t"), ("v2", "t"), ("v3", "t")]).map
      (fun r => r.channelFetchLog) = some ["c1"] := by
  have hmain := channel_fetch_once_c4 c4okOracle "T" (fun _ => []) "c1"
    { extractedAt := Option.none } rfl [("v1", "t"), ("v2", "t"), ("v3", "t")]
  exact ⟨rfl, hmain.1, by decide, hmain.2, by decide⟩

/-- Oracle for the C4 counterexample: videos resolve with channel `c1`
but the channel fetch returns no items (`None`). -/
def c4failOracle : Oracle :=
  { fetchVideo := fun _ =>
      VideoFetch.ok { channelId := some "c1", extractedAt := Option.none },
    fetchChannel := fun _ => ChannelFetch.notFound }

/-- Counterexample to C4 as stated: with two videos referencing channel
`c1` whose fetch fails (returns `None`), `enrich_playlist` performs the
remote channel fetch twice — a failed resolution is not memoized in
`channels_by_id`, so the claim's unconditional "at most one remote
channel fetch per run" is false. -/
theorem channel_fetch_once_cex_c4 :
    countOcc "c1" (epRun c4failOracle "T" epInit0
      [("v1", "t"), ("v2", "t")]).channelFetchLog = 2 ∧
    (epRun c4failOracle "T" epInit0
      [("v1", "t"), ("v2", "t")]).channelFetchLog = ["c1", "c1"] := by
  exact ⟨by decide, by decide⟩
